import Mathlib

/-
  Verification of the Handshake resolver module (LumeWeb/resolver-module-handshake).

  The repository holds several iterations of the same module.  The functions
  verified here are the second iteration in src/src/index.ts (namespace
  Handshake below) and the iteration in src/src/resolver.ts (namespace
  HandshakeKernel below; the source class is also called Handshake).

  External collaborators (the host resolver framework, the chain RPC client,
  the plain-DNS client, the ICANN TLD list and the syntax helpers isDomain,
  isIp, normalizeDomain, getTld) are modelled as oracles in an Env record.
  Machine effects are made explicit: the functions return, next to the result,
  the trace of calls into the host resolver and whether the chain record set
  was fetched.
-/

namespace LumeResolver

/-- DNS record type tags of the host framework's DNS_RECORD_TYPE enum
(external library; modelled as string tags). -/
def DNS_RECORD_TYPE.A : String := "A"

def DNS_RECORD_TYPE.CNAME : String := "CNAME"

def DNS_RECORD_TYPE.NS : String := "NS"

def DNS_RECORD_TYPE.TEXT : String := "TEXT"

def DNS_RECORD_TYPE.CONTENT : String := "CONTENT"

/-- One chain record (the HnsRecord interface of the source). -/
structure HnsRecord where
  type : String
  address : String
  txt : List String
  ns : String
  deriving DecidableEq, Repr, Inhabited

/-- A result record {type, value}.  The value is an Option String: none models
a JS undefined value (for example popping an empty txt list). -/
structure DNSRecord where
  type : String
  value : Option String
  deriving DecidableEq, Repr, Inhabited

/-- The inner options map options.options.  Option fields model key presence:
none means the key is absent.  The nameserver field's inner Option models a
present key whose value may itself be undefined. -/
structure InnerOptions where
  subquery : Option Bool := none
  nameserver : Option (Option String) := none
  ipv6 : Option Bool := none
  hip5 : Option (List String) := none
  domain : Option String := none
  deriving DecidableEq, Repr, Inhabited

/-- The ResolverOptions shape used by the module: the requested record type
and the inner options map (absent when none). -/
structure ResolverOptions where
  type : String
  options : Option InnerOptions := none
  deriving DecidableEq, Repr, Inhabited

/-- Modelled from the spec: the Outcome / DNSResult shape of
@lumeweb/libresolver (absent from src): Success(records), Empty, Error(cause);
resolveSuccess, resolverEmptyResponse and resolverError are its constructors. -/
inductive DNSResult where
  | Success (records : List DNSRecord)
  | Empty
  | Error (cause : String)
  deriving DecidableEq, Repr, Inhabited

/-- The records field of a host resolver response ({records, error?}); an
Empty or Error response carries no records. -/
def DNSResult.records : DNSResult → List DNSRecord
  | .Success rs => rs
  | _ => []

/-- A call into the host resolver this.resolver.resolve(name, options,
bypassCache?); the Option Bool models an omitted third argument. -/
abbrev HostCall := String × ResolverOptions × Option Bool

/-- The kernel client response of resolver.ts: error and result?.records.
none in error models an absent or falsy error; none in records models an
absent result or records field. -/
structure HandshakeResponse where
  error : Option String := none
  records : Option (List HnsRecord) := none
  deriving DecidableEq, Repr, Inhabited

/-- One element of a plain dnsQuery answer; address models answer.data.address. -/
structure DnsAnswer where
  address : Option String := none
  deriving DecidableEq, Repr, Inhabited

/-- The external collaborators, modelled as oracles:
blacklist is the union of sibling-resolver TLDs built by buildBlacklist;
chainQuery is the wisdomQuery of index.ts after the resp?.records || []
extraction; kernelQuery is the kernel client query of resolver.ts;
dnsQuery is the plain-DNS client; hostResolve is this.resolver.resolve;
icannTlds is tldEnum.list; the rest are the syntax helpers. -/
structure Env where
  blacklist : List String
  chainQuery : String → Bool → List HnsRecord
  kernelQuery : String → HandshakeResponse
  dnsQuery : String → String → List DnsAnswer
  hostResolve : String → ResolverOptions → Option Bool → DNSResult
  icannTlds : List String
  isDomain : String → Bool
  isIp : String → Bool
  normalizeDomain : String → String
  getTld : String → String

/-- The built-in HIP-5 extension list of the source. -/
def HIP5_EXTENSIONS : List String := ["eth", "_eth"]

/-- options.options with the `|| {}` default applied. -/
def innerOf (options : ResolverOptions) : InnerOptions :=
  options.options.getD {}

/-- The normalization `options.options = options.options || {}` performed at
the top of resolve. -/
def normalizeOptions (options : ResolverOptions) : ResolverOptions :=
  { options with options := some (innerOf options) }

/-- options.options?.hip5 ?? [] -/
def hip5List (options : ResolverOptions) : List String :=
  (options.options.bind fun o => o.hip5).getD []

/-- Truthiness of `"ipv6" in options.options && options.options.ipv6`:
the key is present and its value is true. -/
def ipv6Truthy (options : ResolverOptions) : Bool :=
  ((innerOf options).ipv6).getD false

/-- The options passed to a subquery: the outer options spread with the inner
map replaced by {subquery: true, nameserver}. -/
def subqueryOptions (options : ResolverOptions) (nameserver : Option String) :
    ResolverOptions :=
  { options with
    options := some { subquery := some true, nameserver := some nameserver } }

/-- Splitting a string on "." (the source's foundDomain.split(".")),
written structurally over the character list so that concrete runs reduce. -/
def splitDotChars : List Char → List (List Char)
  | [] => [[]]
  | c :: rest =>
    let r := splitDotChars rest
    if c = '.' then [] :: r
    else (c :: r.headD []) :: r.tail

/-- String.split(".") of the source. -/
def splitOnDot (s : String) : List String :=
  (splitDotChars s.data).map fun cs => String.mk cs

/-- The test of the regular expression /[a-zA-Z0-9-]+/ used on foundDomain:
the pattern is unanchored, so it holds exactly when the string has at least
one ASCII letter, digit or hyphen. -/
def matchesHostChar (s : String) : Bool :=
  s.data.any fun c => c.isAlphanum || c == '-'

/-- foundDomain.includes(".") of the source. -/
def containsDot (s : String) : Bool :=
  s.data.contains '.'

/-- Modelled from the spec: ensureUniqueRecords of @lumeweb/libresolver
(absent from src) deduplicates by (type, value), preserving first-seen order.
The worker keeps a record exactly when it was not seen before. -/
def dedupAux : List DNSRecord → List DNSRecord → List DNSRecord
  | _, [] => []
  | seen, r :: rest =>
    if r ∈ seen then dedupAux seen rest else r :: dedupAux (r :: seen) rest

/-- Modelled from the spec: deduplicate by (type, value) keeping the first
occurrence of each record. -/
def ensureUniqueRecords (records : List DNSRecord) : List DNSRecord :=
  dedupAux [] records

namespace Handshake

/-- The records.slice().find scan of processNs: the first GLUE4/GLUE6 record
of the fetched set whose ns equals this NS record's ns. -/
def findGlue (hnsRecords : List HnsRecord) (record : HnsRecord) :
    Option HnsRecord :=
  hnsRecords.find? fun item =>
    (["GLUE4", "GLUE6"].contains item.type) && (item.ns == record.ns)

/-- processGlue of src/src/index.ts (second iteration, lines 498-524): for
A/CNAME queries with a valid (ns, address) pair, issue a subquery on the
original domain with the glue address as nameserver and append its records.
Returns the new accumulator and the host resolver calls performed. -/
def processGlue (env : Env) (domain : String) (record : HnsRecord)
    (records : List DNSRecord) (options : ResolverOptions)
    (bypassCache : Bool) : List DNSRecord × List HostCall :=
  if options.type ∉ [DNS_RECORD_TYPE.A, DNS_RECORD_TYPE.CNAME] then
    (records, [])
  else if env.isDomain record.ns && env.isIp record.address then
    let subOpts := subqueryOptions options (some record.address)
    let results := env.hostResolve domain subOpts (some bypassCache)
    (if results.records.length ≠ 0 then records ++ results.records
     else records,
     [(domain, subOpts, some bypassCache)])
  else (records, [])

/-- The tail of processNs after the glue and NS-type short-circuits:
normalization, HIP-5 check, ICANN / chain-recursion branches and the final
direct resolution of record.ns (lines 431-496). -/
def processNsTail (env : Env) (domain : String) (record : HnsRecord)
    (records : List DNSRecord) (options : ResolverOptions)
    (bypassCache : Bool) : List DNSRecord × List HostCall :=
  let foundDomain := env.normalizeDomain record.ns
  let hip5Parts := splitOnDot foundDomain
  let isHip5 := decide (2 ≤ hip5Parts.length) &&
    ((hip5List options ++ HIP5_EXTENSIONS).contains (hip5Parts.getLast!))
  if (env.isDomain foundDomain || matchesHostChar foundDomain) && !isHip5 then
    let isIcann :=
      if containsDot foundDomain then
        env.icannTlds.contains ((splitOnDot foundDomain).getLast!)
      else false
    if !isIcann then
      let hnsNs := env.hostResolve foundDomain options none
      if hnsNs.records.length ≠ 0 then
        let subOpts :=
          subqueryOptions options ((hnsNs.records.getLastD default).value)
        let icannRecords := env.hostResolve domain subOpts none
        (if icannRecords.records.length ≠ 0 then
           records ++ icannRecords.records
         else records,
         [(foundDomain, options, none), (domain, subOpts, none)])
      else
        (records, [(foundDomain, options, none)])
    else
      let subOpts := subqueryOptions options (some foundDomain)
      let icannRecords := env.hostResolve domain subOpts none
      (if icannRecords.records.length ≠ 0 then
         records ++ icannRecords.records
       else records,
       [(domain, subOpts, none)])
  else
    let result := env.hostResolve record.ns options (some bypassCache)
    if result.records.length = 0 then
      -- the source pushes {NS, record.ns} onto result.records, the records of
      -- the local DNSResult just returned, and then returns: the shared
      -- accumulator is left unchanged.
      (records, [(record.ns, options, some bypassCache)])
    else
      (records ++ result.records, [(record.ns, options, some bypassCache)])

/-- processNs of src/src/index.ts (second iteration, lines 400-496). -/
def processNs (env : Env) (domain : String) (record : HnsRecord)
    (records : List DNSRecord) (hnsRecords : List HnsRecord)
    (options : ResolverOptions) (bypassCache : Bool) :
    List DNSRecord × List HostCall :=
  if options.type ∉
      [DNS_RECORD_TYPE.A, DNS_RECORD_TYPE.CNAME, DNS_RECORD_TYPE.NS] then
    (records, [])
  else
    match findGlue hnsRecords record with
    | some glue =>
      if options.type ≠ DNS_RECORD_TYPE.NS then
        processGlue env domain glue records options bypassCache
      else
        (records ++ [⟨DNS_RECORD_TYPE.NS, some record.ns⟩], [])
    | none =>
      if options.type = DNS_RECORD_TYPE.NS then
        (records ++ [⟨DNS_RECORD_TYPE.NS, some record.ns⟩], [])
      else
        processNsTail env domain record records options bypassCache

/-- processTxt of src/src/index.ts (second iteration, lines 542-557): the
content is record.txt.slice().pop(), the last txt entry (undefined when the
list is empty). -/
def processTxt (record : HnsRecord) (records : List DNSRecord)
    (options : ResolverOptions) : List DNSRecord :=
  let content := record.txt.getLast?
  if options.type ∈ [DNS_RECORD_TYPE.TEXT, DNS_RECORD_TYPE.CONTENT] then
    records ++ [⟨DNS_RECORD_TYPE.TEXT, content⟩]
  else records

/-- One iteration of the dispatch loop of resolve (the switch on record.type),
threading the accumulator and the host-call trace. -/
def processRecord (env : Env) (domain : String)
    (chainRecords : List HnsRecord) (options : ResolverOptions)
    (bypassCache : Bool) (acc : List DNSRecord × List HostCall)
    (record : HnsRecord) : List DNSRecord × List HostCall :=
  if record.type = "NS" then
    let out := processNs env domain record acc.1 chainRecords options bypassCache
    (out.1, acc.2 ++ out.2)
  else if record.type = "GLUE4" then
    let out := processGlue env domain record acc.1 options bypassCache
    (out.1, acc.2 ++ out.2)
  else if record.type = "TXT" then
    (processTxt record acc.1 options, acc.2)
  else if record.type = "SYNTH6" then
    (if (options.type == DNS_RECORD_TYPE.A) && ipv6Truthy options then
       acc.1 ++ [⟨options.type, some record.address⟩]
     else acc.1, acc.2)
  else if record.type = "SYNTH4" then
    (if options.type == DNS_RECORD_TYPE.A then
       acc.1 ++ [⟨options.type, some record.address⟩]
     else acc.1, acc.2)
  else acc

/-- The accumulator and host-call trace produced by the dispatch loop of
resolve over the fetched chain record set. -/
def dispatchLoop (env : Env) (domain : String) (options : ResolverOptions)
    (bypassCache : Bool) : List DNSRecord × List HostCall :=
  let chainRecords := env.chainQuery (env.getTld domain) bypassCache
  chainRecords.foldl (processRecord env domain chainRecords options bypassCache)
    ([], [])

/-- The instrumented outcome of resolve: the DNSResult, whether the chain
record set was fetched, and the host resolver calls performed. -/
structure ResolveOutcome where
  result : DNSResult
  fetchedChain : Bool
  hostCalls : List HostCall
  deriving DecidableEq, Repr, Inhabited

/-- resolve of src/src/index.ts (second iteration, lines 312-397).  The chain
query yields resp?.records || [], an array, which is always truthy in JS, so
the !chainRecords guard of the source never fires and has no branch here. -/
def resolve (env : Env) (domain : String) (options : ResolverOptions)
    (bypassCache : Bool) : ResolveOutcome :=
  let options := normalizeOptions options
  let tld := env.getTld domain
  if env.blacklist.contains tld then ⟨.Empty, false, []⟩
  else if env.isIp domain then ⟨.Empty, false, []⟩
  else if (innerOf options).subquery.isSome then ⟨.Empty, false, []⟩
  else
    let out := dispatchLoop env domain options bypassCache
    let deduped := ensureUniqueRecords out.1
    if 0 < deduped.length then ⟨.Success deduped, true, out.2⟩
    else ⟨.Empty, true, out.2⟩

end Handshake

namespace HandshakeKernel

/-- isNSHip5 of src/src/resolver.ts (lines 238-249); the external
normalizeDomain helper is passed explicitly. -/
def isNSHip5 (normalizeDomain : String → String) (record : HnsRecord)
    (options : ResolverOptions) : Bool :=
  let foundDomain := normalizeDomain record.ns
  let hip5Parts := splitOnDot foundDomain
  decide (2 ≤ hip5Parts.length) &&
    ((hip5List options ++ HIP5_EXTENSIONS).contains (hip5Parts.getLast!))

/-- findRecordsByType of src/src/resolver.ts: the records of the given type,
or none (JS false) when there are none. -/
def findRecordsByType (records : List HnsRecord) (type : String) :
    Option (List HnsRecord) :=
  let ret := records.filter fun item => item.type == type
  if ret.length = 0 then none else some ret

/-- handleContentRecords of src/src/resolver.ts: for CONTENT queries, one
CONTENT record per TXT chain record carrying the last txt entry. -/
def handleContentRecords (contentRecords : List HnsRecord)
    (options : ResolverOptions) : List DNSRecord :=
  if options.type = DNS_RECORD_TYPE.CONTENT then
    contentRecords.map fun record =>
      ⟨DNS_RECORD_TYPE.CONTENT, record.txt.getLast?⟩
  else []

/-- handleDelegatedLookup of src/src/resolver.ts. -/
def handleDelegatedLookup (env : Env) (nsRecords : List HnsRecord)
    (options : ResolverOptions) (domain : String) (bypassCache : Bool) :
    List DNSRecord :=
  let result := env.hostResolve (nsRecords.headD default).ns
    { options with options := some { domain := some domain } }
    (some bypassCache)
  if result.records.length ≠ 0 then result.records else []

/-- handleWithNameserver of src/src/resolver.ts: one plain DNS query for the
requested type among A and CNAME, keeping the first answer's data.address. -/
def handleWithNameserver (env : Env) (domain : String)
    (options : ResolverOptions) : List DNSRecord :=
  [DNS_RECORD_TYPE.A, DNS_RECORD_TYPE.CNAME].foldl
    (fun records type =>
      if type == options.type then
        let ret := env.dnsQuery domain type
        if ret.length ≠ 0 then records ++ [⟨type, (ret.headD default).address⟩]
        else records
      else records)
    []

/-- processRecords of src/src/resolver.ts (lines 88-149). -/
def processRecords (env : Env) (hnsRecords : List HnsRecord)
    (options : ResolverOptions) (domain : String) (bypassCache : Bool) :
    List DNSRecord :=
  let nsRecords := findRecordsByType hnsRecords "NS"
  let contentRecords := findRecordsByType hnsRecords "TXT"
  if nsRecords.isSome && contentRecords.isSome &&
      (options.type == DNS_RECORD_TYPE.CONTENT) then
    handleContentRecords (contentRecords.getD []) options
  else
    match nsRecords.bind fun ns =>
        ns.find? fun record => isNSHip5 env.normalizeDomain record options with
    | some hip5Record =>
      let result := env.hostResolve hip5Record.ns
        { options with options := some { domain := some domain } }
        (some bypassCache)
      if result.records.length ≠ 0 then result.records else []
    | none =>
      if nsRecords.isSome &&
          isNSHip5 env.normalizeDomain ((nsRecords.getD []).headD default)
            options then
        handleDelegatedLookup env (nsRecords.getD []) options domain bypassCache
      else if contentRecords.isSome then
        handleContentRecords (contentRecords.getD []) options
      else
        handleWithNameserver env domain options

/-- The instrumented outcome of the resolver.ts resolve: the DNSResult and how
many times the chain record set was fetched. -/
structure KernelOutcome where
  result : DNSResult
  chainFetches : Nat
  deriving DecidableEq, Repr, Inhabited

/-- resolve of src/src/resolver.ts (lines 36-68).  Its private query passes a
literal true for caching, so bypassCache never reaches the chain query. -/
def resolve (env : Env) (domain : String) (options : ResolverOptions)
    (bypassCache : Bool) : KernelOutcome :=
  let options := normalizeOptions options
  if env.blacklist.contains (env.getTld domain) || env.isIp domain then
    ⟨.Empty, 0⟩
  else
    let chainRecords := env.kernelQuery (env.getTld domain)
    match chainRecords.error with
    | some cause => ⟨.Error cause, 1⟩
    | none =>
      match chainRecords.records with
      | none => ⟨.Empty, 1⟩
      | some hnsRecords =>
        if hnsRecords.length = 0 then ⟨.Empty, 1⟩
        else
          let records := ensureUniqueRecords
            (processRecords env hnsRecords options domain bypassCache)
          if 0 < records.length then ⟨.Success records, 1⟩
          else ⟨.Empty, 1⟩

end HandshakeKernel

/-- A base oracle environment used for concrete runs: no sibling blacklist, an
empty chain, a host resolver that yields nothing, plain syntax helpers. -/
def testEnv : Env where
  blacklist := []
  chainQuery := fun _ _ => []
  kernelQuery := fun _ => {}
  dnsQuery := fun _ _ => []
  hostResolve := fun _ _ _ => .Empty
  icannTlds := ["com", "net", "org"]
  isDomain := fun s => containsDot s
  isIp := fun _ => false
  normalizeDomain := id
  getTld := fun d => (splitOnDot d).getLast!

/-- Options whose inner map carries subquery: true. -/
def optsSubqueryTrue : ResolverOptions :=
  { type := DNS_RECORD_TYPE.A, options := some { subquery := some true } }

/-- Options whose inner map carries subquery: false. -/
def optsSubqueryFalse : ResolverOptions :=
  { type := DNS_RECORD_TYPE.A, options := some { subquery := some false } }

/-- An A-type request with no inner options. -/
def optsA : ResolverOptions := { type := DNS_RECORD_TYPE.A }

/-- An NS-type request with no inner options. -/
def optsNS : ResolverOptions := { type := DNS_RECORD_TYPE.NS }

/-- Scenario A environment: the chain record set of the top-level label is a
single NS record delegating to ns1.com. -/
def envScenarioA : Env :=
  { testEnv with chainQuery := fun _ _ => [⟨"NS", "", [], "ns1.com"⟩] }

/-- Environment with one NS chain record whose target foo.eth is HIP-5, and a
host resolver that yields no records anywhere. -/
def envNsFallback : Env :=
  { testEnv with chainQuery := fun _ _ => [⟨"NS", "", [], "foo.eth"⟩] }

/-- Environment whose chain record set holds the same SYNTH4 record twice. -/
def envDupSynth : Env :=
  { testEnv with chainQuery := fun _ _ =>
      [⟨"SYNTH4", "1.2.3.4", [], ""⟩, ⟨"SYNTH4", "1.2.3.4", [], ""⟩] }

/-- Environment for the glue scenario: every name is a valid domain, every
address a valid IP, and subqueries yield one A record 7.7.7.7. -/
def envGlue : Env :=
  { testEnv with
    isDomain := fun _ => true
    isIp := fun _ => true
    hostResolve := fun _ _ _ => .Success [⟨DNS_RECORD_TYPE.A, some "7.7.7.7"⟩] }

/-- Environment whose kernel chain query reports a transport error. -/
def envKernelError : Env :=
  { testEnv with kernelQuery := fun _ => { error := some "boom" } }

/-- Environment whose kernel chain query succeeds with an empty record set. -/
def envKernelEmpty : Env :=
  { testEnv with kernelQuery := fun _ => { records := some [] } }

/-- A CONTENT-type request with no inner options. -/
def optsContent : ResolverOptions := { type := DNS_RECORD_TYPE.CONTENT }

/-- An NS chain record delegating to ns1.com. -/
def recNs1 : HnsRecord := ⟨"NS", "", [], "ns1.com"⟩

/-- A GLUE4 chain record binding ns1.com to 9.9.9.9. -/
def glue1 : HnsRecord := ⟨"GLUE4", "9.9.9.9", [], "ns1.com"⟩

/-- A SYNTH4 chain record carrying the address 1.2.3.4. -/
def synth1 : HnsRecord := ⟨"SYNTH4", "1.2.3.4", [], ""⟩

/-- A TXT chain record with two txt entries. -/
def txt1 : HnsRecord := ⟨"TXT", "", ["v=1", "hello"], ""⟩

lemma mem_dedupAux (l : List DNSRecord) : ∀ (seen : List DNSRecord)
    (r : DNSRecord), r ∈ dedupAux seen l ↔ r ∈ l ∧ r ∉ seen := by
  induction l with
  | nil => intro seen r; simp [dedupAux]
  | cons a rest ih =>
    intro seen r
    by_cases ha : a ∈ seen
    · rw [dedupAux, if_pos ha, ih]
      constructor
      · rintro ⟨h1, h2⟩; exact ⟨List.mem_cons_of_mem _ h1, h2⟩
      · rintro ⟨h1, h2⟩
        rcases List.mem_cons.mp h1 with rfl | h1
        · exact absurd ha h2
        · exact ⟨h1, h2⟩
    · rw [dedupAux, if_neg ha]
      constructor
      · intro h
        rcases List.mem_cons.mp h with rfl | h
        · exact ⟨List.mem_cons_self _ _, ha⟩
        · rcases (ih _ _).mp h with ⟨h1, h2⟩
          exact ⟨List.mem_cons_of_mem _ h1,
            fun hs => h2 (List.mem_cons_of_mem _ hs)⟩
      · rintro ⟨h1, h2⟩
        rcases List.mem_cons.mp h1 with rfl | h1
        · exact List.mem_cons_self _ _
        · by_cases hra : r = a
          · subst hra; exact List.mem_cons_self _ _
          · refine List.mem_cons_of_mem _ ((ih _ _).mpr ⟨h1, fun hs => ?_⟩)
            rcases List.mem_cons.mp hs with h | h
            · exact hra h
            · exact h2 h

lemma pairwise_imp_mem {R S : DNSRecord → DNSRecord → Prop} :
    ∀ {l : List DNSRecord}, (∀ a b, a ∈ l → b ∈ l → R a b → S a b) →
      l.Pairwise R → l.Pairwise S := by
  intro l
  induction l with
  | nil => intro _ _; exact List.Pairwise.nil
  | cons a rest ih =>
    intro h hp
    rcases List.pairwise_cons.mp hp with ⟨h1, h2⟩
    refine List.pairwise_cons.mpr ⟨?_, ?_⟩
    · intro b hb
      exact h a b (List.mem_cons_self _ _) (List.mem_cons_of_mem _ hb) (h1 b hb)
    · exact ih
        (fun x y hx hy =>
          h x y (List.mem_cons_of_mem _ hx) (List.mem_cons_of_mem _ hy)) h2

lemma dedupAux_pairwise (l : List DNSRecord) : ∀ (seen : List DNSRecord),
    (dedupAux seen l).Pairwise fun a b => l.indexOf a < l.indexOf b := by
  induction l with
  | nil => intro seen; simp [dedupAux]
  | cons a rest ih =>
    intro seen
    by_cases ha : a ∈ seen
    · rw [dedupAux, if_pos ha]
      refine pairwise_imp_mem ?_ (ih seen)
      intro x y hx hy hlt
      have hxm := (mem_dedupAux rest seen x).mp hx
      have hym := (mem_dedupAux rest seen y).mp hy
      have hxa : x ≠ a := fun h => hxm.2 (h ▸ ha)
      have hya : y ≠ a := fun h => hym.2 (h ▸ ha)
      rw [List.indexOf_cons_ne _ (Ne.symm hxa),
        List.indexOf_cons_ne _ (Ne.symm hya)]
      exact Nat.succ_lt_succ hlt
    · rw [dedupAux, if_neg ha]
      refine List.pairwise_cons.mpr ⟨?_, ?_⟩
      · intro y hy
        have hym := (mem_dedupAux rest (a :: seen) y).mp hy
        have hya : y ≠ a := fun h => hym.2 (h ▸ List.mem_cons_self _ _)
        rw [List.indexOf_cons_self, List.indexOf_cons_ne _ (Ne.symm hya)]
        exact Nat.succ_pos _
      · refine pairwise_imp_mem ?_ (ih (a :: seen))
        intro x y hx hy hlt
        have hxm := (mem_dedupAux rest (a :: seen) x).mp hx
        have hym := (mem_dedupAux rest (a :: seen) y).mp hy
        have hxa : x ≠ a := fun h => hxm.2 (h ▸ List.mem_cons_self _ _)
        have hya : y ≠ a := fun h => hym.2 (h ▸ List.mem_cons_self _ _)
        rw [List.indexOf_cons_ne _ (Ne.symm hxa),
          List.indexOf_cons_ne _ (Ne.symm hya)]
        exact Nat.succ_lt_succ hlt

lemma ensureUnique_pairwise (l : List DNSRecord) :
    (ensureUniqueRecords l).Pairwise fun a b => l.indexOf a < l.indexOf b :=
  dedupAux_pairwise l []

lemma ensureUnique_nodup (l : List DNSRecord) :
    (ensureUniqueRecords l).Nodup := by
  have hp := ensureUnique_pairwise l
  show (ensureUniqueRecords l).Pairwise fun a b => a ≠ b
  exact pairwise_imp_mem
    (fun a b _ _ hlt heq => absurd (heq ▸ hlt) (lt_irrefl _)) hp

lemma mem_ensureUnique (l : List DNSRecord) (r : DNSRecord) :
    r ∈ ensureUniqueRecords l ↔ r ∈ l := by
  rw [ensureUniqueRecords, mem_dedupAux]
  simp

lemma count_ensureUnique (l : List DNSRecord) (r : DNSRecord) (h : r ∈ l) :
    (ensureUniqueRecords l).count r = 1 :=
  List.count_eq_one_of_mem (ensureUnique_nodup l)
    ((mem_ensureUnique l r).mpr h)

lemma ensureUnique_eq_nil_iff (l : List DNSRecord) :
    ensureUniqueRecords l = [] ↔ l = [] := by
  cases l with
  | nil => simp [ensureUniqueRecords, dedupAux]
  | cons a rest => simp [ensureUniqueRecords, dedupAux]

lemma innerOf_normalize (options : ResolverOptions) :
    innerOf (normalizeOptions options) = innerOf options := rfl

lemma resolve_subquery_present (env : Env) (domain : String)
    (options : ResolverOptions) (bypassCache : Bool)
    (h : (innerOf options).subquery.isSome = true) :
    Handshake.resolve env domain options bypassCache = ⟨.Empty, false, []⟩ := by
  simp only [Handshake.resolve]
  by_cases hb : env.blacklist.contains (env.getTld domain) = true
  · rw [if_pos hb]
  · rw [if_neg hb]
    by_cases hip : env.isIp domain = true
    · rw [if_pos hip]
    · rw [if_neg hip]
      have hn : (innerOf (normalizeOptions options)).subquery.isSome = true := h
      rw [if_pos hn]

/-- C1: for every environment (hence every chain record set), every domain,
every bypassCache flag and every options value whose inner options map
carries subquery: true, resolve returns the empty response, regardless of
all other option fields. -/
theorem c1_subquery_true_returns_empty (env : Env) (domain : String)
    (options : ResolverOptions) (bypassCache : Bool)
    (h : (innerOf options).subquery = some true) :
    (Handshake.resolve env domain options bypassCache).result = .Empty := by
  rw [resolve_subquery_present env domain options bypassCache
    (by rw [h]; rfl)]

theorem c1_witness :
    (Handshake.resolve testEnv "name.hns" optsSubqueryTrue false).result =
      .Empty :=
  c1_subquery_true_returns_empty testEnv "name.hns" optsSubqueryTrue false rfl

/-- C9: the anti-recursion guard fires on mere presence of the subquery key,
not on its value: with the key present under any value (including false),
resolve returns the empty response, fetches no chain record set and makes
no host resolver call. -/
theorem c9_subquery_presence_guard (env : Env) (domain : String)
    (options : ResolverOptions) (bypassCache : Bool)
    (h : (innerOf options).subquery.isSome = true) :
    Handshake.resolve env domain options bypassCache = ⟨.Empty, false, []⟩ :=
  resolve_subquery_present env domain options bypassCache h

theorem c9_witness :
    Handshake.resolve testEnv "name.hns" optsSubqueryFalse false =
      ⟨.Empty, false, []⟩ :=
  c9_subquery_presence_guard testEnv "name.hns" optsSubqueryFalse false rfl

/-- C5: when the requested type is exactly NS, processNs emits exactly
ResultRecord{NS, record.ns} and performs no host resolver call, whatever the
chain record set holds; and on the chain record set [{NS, ns: ns1.com}] an
NS query resolves to Success([{NS, ns1.com}]). -/
theorem c5_ns_type_verbatim :
    (∀ (env : Env) (domain : String) (record : HnsRecord)
      (records : List DNSRecord) (hnsRecords : List HnsRecord)
      (options : ResolverOptions) (bypassCache : Bool),
      options.type = DNS_RECORD_TYPE.NS →
      Handshake.processNs env domain record records hnsRecords options
          bypassCache =
        (records ++ [⟨DNS_RECORD_TYPE.NS, some record.ns⟩], [])) ∧
    (Handshake.resolve envScenarioA "test" optsNS false).result =
      .Success [⟨DNS_RECORD_TYPE.NS, some "ns1.com"⟩] := by
  constructor
  · intro env domain record records hnsRecords options bypassCache h
    cases hfg : Handshake.findGlue hnsRecords record with
    | some g =>
      simp [Handshake.processNs, h, hfg, DNS_RECORD_TYPE.A,
        DNS_RECORD_TYPE.CNAME, DNS_RECORD_TYPE.NS]
    | none =>
      simp [Handshake.processNs, h, hfg, DNS_RECORD_TYPE.A,
        DNS_RECORD_TYPE.CNAME, DNS_RECORD_TYPE.NS]
  · decide

theorem c5_witness :
    Handshake.processNs testEnv "d" recNs1 [] [] optsNS false =
      ([⟨DNS_RECORD_TYPE.NS, some "ns1.com"⟩], []) :=
  c5_ns_type_verbatim.1 testEnv "d" recNs1 [] [] optsNS false rfl

/-- C2: for A/CNAME queries, when the fetched set holds a GLUE record paired
with this NS record's ns, processNs delegates entirely to processGlue with
that glue record (no HIP-5, ICANN or recursive branch runs); processGlue,
with a valid ns and address, issues exactly one subquery on the original
domain whose options carry subquery: true and nameserver set to the glue
record's address, and appends the records that subquery returns. -/
theorem c2_glue_delegation (env : Env) (domain : String)
    (record g : HnsRecord) (records : List DNSRecord)
    (hnsRecords : List HnsRecord) (options : ResolverOptions)
    (bypassCache : Bool)
    (ht : options.type = DNS_RECORD_TYPE.A ∨
      options.type = DNS_RECORD_TYPE.CNAME)
    (hg : Handshake.findGlue hnsRecords record = some g) :
    (Handshake.processNs env domain record records hnsRecords options
        bypassCache =
      Handshake.processGlue env domain g records options bypassCache) ∧
    (env.isDomain g.ns = true → env.isIp g.address = true →
      Handshake.processGlue env domain g records options bypassCache =
        ((if (env.hostResolve domain (subqueryOptions options (some g.address))
              (some bypassCache)).records.length ≠ 0 then
            records ++ (env.hostResolve domain
              (subqueryOptions options (some g.address))
              (some bypassCache)).records
          else records),
         [(domain, subqueryOptions options (some g.address),
           some bypassCache)])) ∧
    (subqueryOptions options (some g.address)).options =
      some { subquery := some true, nameserver := some (some g.address) } := by
  refine ⟨?_, ?_, rfl⟩
  · rcases ht with ht | ht <;>
      simp [Handshake.processNs, ht, hg, DNS_RECORD_TYPE.A,
        DNS_RECORD_TYPE.CNAME, DNS_RECORD_TYPE.NS]
  · intro hd hi
    rcases ht with ht | ht <;>
      simp [Handshake.processGlue, ht, hd, hi, DNS_RECORD_TYPE.A,
        DNS_RECORD_TYPE.CNAME]

theorem c2_witness :
    Handshake.processNs envGlue "site.hns" recNs1 [] [recNs1, glue1] optsA
        false =
      ([⟨DNS_RECORD_TYPE.A, some "7.7.7.7"⟩],
       [("site.hns", subqueryOptions optsA (some "9.9.9.9"), some false)]) := by
  have h := c2_glue_delegation envGlue "site.hns" recNs1 glue1 [] [recNs1, glue1]
    optsA false (Or.inl rfl) (by decide)
  rw [h.1, h.2.1 rfl rfl]
  decide

/-- C3 (code bug): with the chain record set [{NS, ns: foo.eth}] and an A
query whose direct resolution of the NS target yields no records, the source
pushes the fallback {NS, foo.eth} onto result.records of the local, already
discarded DNSResult instead of the shared accumulator, and returns: resolve
performs the direct resolution (exactly one host call, on foo.eth) and still
returns Empty instead of surfacing the raw delegation target. -/
theorem c3_ns_fallback_is_discarded :
    Handshake.resolve envNsFallback "site.hns" optsA false =
      ⟨.Empty, true, [("foo.eth", normalizeOptions optsA, some false)]⟩ := by
  decide

/-- C4: with the entry gates passed, resolve answers from the dispatch-loop
accumulator deduplicated by (type, value): every record occurring in the
accumulator occurs exactly once in the deduplicated sequence, whose order is
the order of first occurrences in the accumulator (first-seen order), with
membership unchanged; and the outcome is Success of that sequence exactly
when it is non-empty, Empty otherwise. -/
theorem c4_dedup_first_seen (env : Env) (domain : String)
    (options : ResolverOptions) (bypassCache : Bool)
    (acc : List DNSRecord)
    (hb : env.blacklist.contains (env.getTld domain) = false)
    (hip : env.isIp domain = false)
    (hs : (innerOf options).subquery = none)
    (hacc : acc =
      (Handshake.dispatchLoop env domain (normalizeOptions options)
        bypassCache).1) :
    ((Handshake.resolve env domain options bypassCache).result =
      if ensureUniqueRecords acc = [] then .Empty
      else .Success (ensureUniqueRecords acc)) ∧
    (∀ r ∈ acc, (ensureUniqueRecords acc).count r = 1) ∧
    ((ensureUniqueRecords acc).Pairwise fun a b =>
      acc.indexOf a < acc.indexOf b) ∧
    (∀ r, r ∈ ensureUniqueRecords acc ↔ r ∈ acc) := by
  subst hacc
  refine ⟨?_, fun r hr => count_ensureUnique _ r hr, ensureUnique_pairwise _,
    fun r => mem_ensureUnique _ r⟩
  simp only [Handshake.resolve]
  have hb' : ¬(env.blacklist.contains (env.getTld domain) = true) := by
    intro hc
    rw [hc] at hb
    exact Bool.noConfusion hb
  have hip' : ¬(env.isIp domain = true) := by
    intro hc
    rw [hc] at hip
    exact Bool.noConfusion hip
  have hs' : ¬((innerOf (normalizeOptions options)).subquery.isSome = true) := by
    rw [innerOf_normalize, hs]
    simp
  rw [if_neg hb', if_neg hip', if_neg hs']
  by_cases hnil : ensureUniqueRecords
      (Handshake.dispatchLoop env domain (normalizeOptions options)
        bypassCache).1 = []
  · rw [if_pos hnil, if_neg (by rw [hnil]; simp)]
  · rw [if_neg hnil, if_pos (List.length_pos.mpr hnil)]

theorem c4_witness :
    (Handshake.resolve envDupSynth "x" optsA false).result =
      .Success [⟨DNS_RECORD_TYPE.A, some "1.2.3.4"⟩] := by
  have h := c4_dedup_first_seen envDupSynth "x" optsA false _ rfl rfl rfl rfl
  rw [h.1]
  decide

/-- C6: in the resolver.ts iteration, with the bypass gate passed, a
transport-level error of the chain query is surfaced as Error with that
cause after exactly one fetch (no retry), and a successful fetch whose
record set is missing or empty yields Empty (no error), also after exactly
one fetch. -/
theorem c6_transport_error_and_empty (env : Env) (domain : String)
    (options : ResolverOptions) (bypassCache : Bool)
    (hb : env.blacklist.contains (env.getTld domain) = false)
    (hip : env.isIp domain = false) :
    (∀ cause, (env.kernelQuery (env.getTld domain)).error = some cause →
      HandshakeKernel.resolve env domain options bypassCache =
        ⟨.Error cause, 1⟩) ∧
    ((env.kernelQuery (env.getTld domain)).error = none →
      ((env.kernelQuery (env.getTld domain)).records = none ∨
        (env.kernelQuery (env.getTld domain)).records = some []) →
      HandshakeKernel.resolve env domain options bypassCache =
        ⟨.Empty, 1⟩) := by
  have hgate : ¬((env.blacklist.contains (env.getTld domain) ||
      env.isIp domain) = true) := by
    intro hc
    rw [hb, hip] at hc
    exact Bool.noConfusion hc
  constructor
  · intro cause hc
    simp only [HandshakeKernel.resolve]
    rw [if_neg hgate, hc]
  · intro he hrec
    simp only [HandshakeKernel.resolve]
    rw [if_neg hgate, he]
    rcases hrec with hrec | hrec <;> rw [hrec]
    simp

theorem c6_witness :
    HandshakeKernel.resolve envKernelError "x" optsA false =
      ⟨.Error "boom", 1⟩ ∧
    HandshakeKernel.resolve envKernelEmpty "x" optsA false = ⟨.Empty, 1⟩ :=
  ⟨(c6_transport_error_and_empty envKernelError "x" optsA false rfl rfl).1
      "boom" rfl,
   (c6_transport_error_and_empty envKernelEmpty "x" optsA false rfl rfl).2
      rfl (Or.inr rfl)⟩

/-- C7: a SYNTH4 chain record makes the dispatch step append
ResultRecord{A, record.address} exactly when the requested type is A, and a
SYNTH6 chain record makes it append ResultRecord{A, record.address} exactly
when the requested type is A and the inner ipv6 option is present and true
(an absent or false ipv6 key suppresses it); in both cases the emitted
record's type is the requested A type. -/
theorem c7_synth_records (env : Env) (domain : String)
    (chainRecords : List HnsRecord) (options : ResolverOptions)
    (bypassCache : Bool) (acc : List DNSRecord × List HostCall)
    (record : HnsRecord) :
    (record.type = "SYNTH4" →
      Handshake.processRecord env domain chainRecords options bypassCache acc
          record =
        ((if options.type = DNS_RECORD_TYPE.A then
            acc.1 ++ [⟨DNS_RECORD_TYPE.A, some record.address⟩]
          else acc.1), acc.2)) ∧
    (record.type = "SYNTH6" →
      Handshake.processRecord env domain chainRecords options bypassCache acc
          record =
        ((if options.type = DNS_RECORD_TYPE.A ∧
              (innerOf options).ipv6 = some true then
            acc.1 ++ [⟨DNS_RECORD_TYPE.A, some record.address⟩]
          else acc.1), acc.2)) := by
  constructor
  · intro h
    by_cases ht : options.type = DNS_RECORD_TYPE.A <;>
      simp [Handshake.processRecord, h, ht]
  · intro h
    by_cases ht : options.type = DNS_RECORD_TYPE.A
    · cases h6 : (innerOf options).ipv6 with
      | none => simp [Handshake.processRecord, h, ht, h6, ipv6Truthy]
      | some b =>
        cases b <;> simp [Handshake.processRecord, h, ht, h6, ipv6Truthy]
    · simp [Handshake.processRecord, h, ht]

theorem c7_witness :
    Handshake.processRecord testEnv "d" [] optsA false ([], []) synth1 =
      ([⟨DNS_RECORD_TYPE.A, some "1.2.3.4"⟩], []) := by
  have h := (c7_synth_records testEnv "d" [] optsA false ([], []) synth1).1 rfl
  rw [h]
  decide

/-- C8: the HIP-5 classification holds exactly when splitting the normalized
target on the dot yields at least two labels whose last one belongs to the
union of the caller-supplied hip5 list and the built-in set {eth, _eth};
in particular foo.eth qualifies, foo.com does not and the single label eth
does not. -/
theorem c8_hip5_classification :
    (∀ (normalizeDomain : String → String) (record : HnsRecord)
      (options : ResolverOptions),
      HandshakeKernel.isNSHip5 normalizeDomain record options = true ↔
        (2 ≤ (splitOnDot (normalizeDomain record.ns)).length ∧
          (splitOnDot (normalizeDomain record.ns)).getLast! ∈
            hip5List options ++ ["eth", "_eth"])) ∧
    HandshakeKernel.isNSHip5 id ⟨"NS", "", [], "foo.eth"⟩ optsA = true ∧
    HandshakeKernel.isNSHip5 id ⟨"NS", "", [], "foo.com"⟩ optsA = false ∧
    HandshakeKernel.isNSHip5 id ⟨"NS", "", [], "eth"⟩ optsA = false := by
  refine ⟨?_, by decide, by decide, by decide⟩
  intro normalizeDomain record options
  simp [HandshakeKernel.isNSHip5, HIP5_EXTENSIONS]

/-- C10: for TEXT and CONTENT queries alike, processTxt appends one record
whose type is TEXT (even when CONTENT was requested) and whose value is the
last element of the record's txt sequence; for any other requested type it
appends nothing. -/
theorem c10_txt_records (record : HnsRecord) (records : List DNSRecord)
    (options : ResolverOptions) :
    ((options.type = DNS_RECORD_TYPE.TEXT ∨
      options.type = DNS_RECORD_TYPE.CONTENT) →
      Handshake.processTxt record records options =
        records ++ [⟨DNS_RECORD_TYPE.TEXT, record.txt.getLast?⟩]) ∧
    (∀ h : record.txt ≠ [],
      record.txt.getLast? = some (record.txt.getLast h)) ∧
    (options.type ≠ DNS_RECORD_TYPE.TEXT →
      options.type ≠ DNS_RECORD_TYPE.CONTENT →
      Handshake.processTxt record records options = records) := by
  refine ⟨?_, fun h => List.getLast?_eq_getLast_of_ne_nil h, ?_⟩
  · intro h
    rcases h with h | h <;>
      simp [Handshake.processTxt, h, DNS_RECORD_TYPE.TEXT,
        DNS_RECORD_TYPE.CONTENT]
  · intro h1 h2
    simp [Handshake.processTxt, h1, h2]

theorem c10_witness :
    Handshake.processTxt txt1 [] optsContent =
      [⟨DNS_RECORD_TYPE.TEXT, some "hello"⟩] := by
  have h := (c10_txt_records txt1 [] optsContent).1 (Or.inr rfl)
  rw [h]
  decide

end LumeResolver
